import Mathlib

/-!
Verification of the polling-and-edge-detection engine of this repository
(an odds-monitoring bot).  The Lean definitions below are shallow
embeddings of the Python source:

* `poisson_prob`, `fair_odds`           — src/fair_odds.py (FairOddsEngine)
* `has_edge`, `pySub`, `pyDiv`          — src/engine.py (OpeningEngine.has_edge),
  with Python dynamic typing modelled by the `PyVal` type and `Except`
  capturing runtime type errors
* `live_step`, `live_cycle`, `evict_cache`, `fingerprint`
                                        — src/engine.py (monitor_live_odds)
* `make_request`, `fetch_with_league_filter`, `fetch_without_filters`,
  `fetch_matches_by_status`, `get_live_odds`, `format_matches`,
  `extract_odds`, `process_market_odds` — src/providers.py (PandaScoreProvider)
* `acquire`                             — src/providers.py (RateLimiter)

Machine floats are modelled by ℝ (for the Poisson model, whose claims are
about the exact mathematical values) and by ℚ (for the purely arithmetic
edge computation).  Network traffic is modelled by an explicit list of
responses consumed one per request attempt; `asyncio.sleep` calls are
recorded in a sleep log.
-/

/-! ### Python value model (dynamic typing of src/engine.py) -/

/-- A Python runtime value as it flows through `OpeningEngine`:
numbers (floats, modelled by ℚ), strings, `None`, and dicts with string
keys.  This is the shape of the `odds` payloads the providers build. -/
inductive PyVal where
  | num : ℚ → PyVal
  | str : String → PyVal
  | none : PyVal
  | dict : List (String × PyVal) → PyVal

/-- Python truthiness (`not x`) for the values above: `0`, `""`, `None`
and the empty dict are falsy. -/
def pyFalsy : PyVal → Bool
  | .num q => q == 0
  | .str s => s == ""
  | .none => true
  | .dict d => d.isEmpty

/-- Python binary `-` on engine values: defined only for two numbers,
any other operand combination raises `TypeError` (e.g. `dict - float`). -/
def pySub : PyVal → PyVal → Except String ℚ
  | .num a, .num b => .ok (a - b)
  | _, _ => .error "TypeError"

/-- Python `/` with a numeric numerator: the denominator must be a
nonzero number, otherwise `TypeError` / `ZeroDivisionError`. -/
def pyDiv (a : ℚ) : PyVal → Except String ℚ
  | .num b => if b == 0 then .error "ZeroDivisionError" else .ok (a / b)
  | _ => .error "TypeError"

/-- `OpeningEngine.has_edge` (src/engine.py lines 185-189): returns
`False` when either operand is falsy, otherwise evaluates
`(market_odd - fair_odd) / fair_odd > edge_threshold`; the comparison is
the strict `>` of Python.  Evaluation of `-` on a non-numeric quote
raises, which the `Except` layer records. -/
def has_edge (market_odd fair_odd : PyVal) (edge_threshold : ℚ) : Except String Bool :=
  if pyFalsy market_odd || pyFalsy fair_odd then .ok false
  else
    match pySub market_odd fair_odd with
    | .error e => .error e
    | .ok d =>
      match pyDiv d fair_odd with
      | .error e => .error e
      | .ok e => .ok (decide (edge_threshold < e))

/-- `OpeningEngine.calculate_edge` without the display rounding:
the signed edge fraction `(market_odd - fair_odd) / fair_odd`. -/
def edge_fraction (market_odd fair_odd : ℚ) : ℚ :=
  (market_odd - fair_odd) / fair_odd

/-! ### Fair-odds model (src/fair_odds.py) -/

/-- `FairOddsEngine.poisson_prob`: `lam ** k * exp(-lam) / factorial(k)`. -/
noncomputable def poisson_prob (lam : ℝ) (k : ℕ) : ℝ :=
  lam ^ k * Real.exp (-lam) / (Nat.factorial k : ℝ)

/-- `FairOddsEngine.fair_odds`: `prob_over` is one minus the cumulative
Poisson mass over `range(int(line)+1)`; `prob_under = 1 - prob_over`;
each side is priced `1/p` when `p > 0` and `None` otherwise.  Python
`int(line)` is `⌊line⌋₊` for the nonnegative lines of the spec.  The
first component is the over price, the second the under price. -/
noncomputable def fair_odds (avg_value line : ℝ) : Option ℝ × Option ℝ :=
  let prob_over : ℝ := 1 - ∑ k ∈ Finset.range (⌊line⌋₊ + 1), poisson_prob avg_value k
  let prob_under : ℝ := 1 - prob_over
  (if 0 < prob_over then some (1 / prob_over) else none,
   if 0 < prob_under then some (1 / prob_under) else none)

/-- The cumulative Poisson mass exactly as the spec words it
(§4.3: "Σ_(k=0..⌊L⌋) e^(−λ)·λ^k/k!"); stated separately from the code
embedding `fair_odds` so the two can be compared. -/
noncomputable def spec_poisson_cdf (lam L : ℝ) : ℝ :=
  ∑ k ∈ Finset.range (⌊L⌋₊ + 1), Real.exp (-lam) * lam ^ k / (Nat.factorial k : ℝ)

/-! ### String utilities used by the providers -/

/-- Substring test on character lists: Python `pat in s`. -/
def listContainsSub (p : List Char) : List Char → Bool
  | [] => p.isPrefixOf []
  | c :: t => p.isPrefixOf (c :: t) || listContainsSub p t

/-- Python `pat in s` for strings. -/
def strContains (s pat : String) : Bool :=
  listContainsSub pat.toList s.toList

/-- Python `str.lower()` (character-list implementation). -/
def strToLower (s : String) : String :=
  String.mk (s.toList.map Char.toLower)

/-- The regex `(\d+\.?\d*)` of `_process_market_odds` /
`extract_line_from_market`: the first maximal digit run, optionally
followed by a dot and further digits, returned as the matched text. -/
def find_number : List Char → Option String
  | [] => none
  | c :: rest =>
    if c.isDigit then
      let ds := (c :: rest).takeWhile Char.isDigit
      match (c :: rest).dropWhile Char.isDigit with
      | '.' :: r2 => some (String.mk (ds ++ '.' :: r2.takeWhile Char.isDigit))
      | _ => some (String.mk ds)
    else find_number rest

/-- Python `str.capitalize()`: first character uppercased, the rest
lowercased. -/
def capitalizeWord (w : String) : String :=
  match w.toList with
  | [] => ""
  | c :: rest => String.mk (c.toUpper :: rest.map Char.toLower)

/-- `PandaScoreProvider._clean_market_name`: strip characters that are
neither alphanumeric nor whitespace, split into words, capitalize each
word and concatenate. -/
def clean_market_name (market_name : String) : String :=
  let cleaned := String.mk (market_name.toList.filter (fun c => c.isAlphanum || c.isWhitespace))
  let words := (cleaned.splitOn " ").filter (fun w => w ≠ "")
  String.join (words.map capitalizeWord)

/-! ### Raw feed records (src/providers.py) -/

/-- One entry of a raw market `results` list: `name` and `odds` keys. -/
structure RawResult where
  name : Option String
  odds : Option ℚ
deriving DecidableEq

/-- One raw market: `market_name` and its `results`. -/
structure RawOdd where
  market_name : String
  results : List RawResult
deriving DecidableEq

/-- The `opponent` object inside an opponents entry. -/
structure RawOpponent where
  name : Option String
  slug : Option String
deriving DecidableEq

/-- The `league` object of a raw match. -/
structure RawLeague where
  name : Option String
  slug : Option String
deriving DecidableEq

/-- A raw match record as returned by the feed, restricted to the keys
`_format_single_match` reads. -/
structure RawMatch where
  id : Option Nat
  opponents : List (Option RawOpponent)
  league : Option RawLeague
  tournament_name : Option String
  begin_at : Option String
  odds : List RawOdd
deriving DecidableEq

/-- A normalized match record (the dict `_format_single_match` builds). -/
structure MatchRec where
  match_id : String
  match_name : String
  team1 : String
  team2 : String
  league : String
  league_slug : String
  tournament : Option String
  status : String
  begin_at : Option String
  odds : List (String × PyVal)

/-- `Option ℚ → PyVal`: a missing price is Python `None`. -/
def opt_to_py : Option ℚ → PyVal
  | some q => .num q
  | Option.none => .none

/-- Truthiness of `result.get('name')`. -/
def name_truthy (r : RawResult) : Bool :=
  match r.name with
  | some s => !(s == "")
  | Option.none => false

/-- Python dict assignment `d[k] = v` on an association list. -/
def dictSet (d : List (String × PyVal)) (k : String) (v : PyVal) : List (String × PyVal) :=
  if d.any (fun p => p.1 == k) then d.map (fun p => if p.1 == k then (k, v) else p)
  else d ++ [(k, v)]

/-- `PandaScoreProvider._process_market_odds`: the ordered substring
rule table classifying one raw market and writing its quote into
`odds_data`.  Faithful to the source: winner/2-way markets become `ML`
two-sided dicts, first-blood and first-tower become two-sided dicts,
kills totals become an over/under pair keyed `KillsO/U<line>` (over and
under identified by outcome names, else by list order, the quote written
only when both sides are determined), dragon/baron/inhibitor markets
become a cleaned-name key with a two-sided dict or a single scalar. -/
def process_market_odds (market_name : String) (results : List RawResult)
    (odds_data : List (String × PyVal)) : List (String × PyVal) :=
  if strContains market_name "winner" &&
      (strContains market_name "2-way" || strContains market_name "match") then
    match results[0]?, results[1]? with
    | some r0, some r1 =>
      if name_truthy r0 && name_truthy r1 then
        dictSet odds_data "ML"
          (.dict [(r0.name.getD "", opt_to_py r0.odds), (r1.name.getD "", opt_to_py r1.odds)])
      else
        dictSet odds_data "ML"
          (.dict [("team1", opt_to_py r0.odds), ("team2", opt_to_py r1.odds)])
    | _, _ => odds_data
  else if strContains market_name "first blood" then
    match results[0]?, results[1]? with
    | some r0, some r1 =>
      dictSet odds_data "FirstBlood"
        (.dict [("team1", opt_to_py r0.odds), ("team2", opt_to_py r1.odds)])
    | _, _ => odds_data
  else if strContains market_name "first tower" || strContains market_name "first turret" then
    match results[0]?, results[1]? with
    | some r0, some r1 =>
      dictSet odds_data "FirstTower"
        (.dict [("team1", opt_to_py r0.odds), ("team2", opt_to_py r1.odds)])
    | _, _ => odds_data
  else if strContains market_name "kill" &&
      (strContains market_name "total" || strContains market_name "over" ||
        strContains market_name "under") then
    match find_number market_name.toList, results[0]?, results[1]? with
    | some line, some r0, some r1 =>
      let market_key := "KillsO/U" ++ line
      let pick := results.foldl
        (fun (p : Option RawResult × Option RawResult) r =>
          let rn := strToLower (r.name.getD "")
          if strContains rn "over" then (some r, p.2)
          else if strContains rn "under" then (p.1, some r)
          else p)
        (Option.none, Option.none)
      let over_result := if pick.1.isNone && pick.2.isNone then some r0 else pick.1
      let under_result := if pick.1.isNone && pick.2.isNone then some r1 else pick.2
      match over_result, under_result with
      | some ov, some un =>
        dictSet odds_data market_key
          (.dict [("over", opt_to_py ov.odds), ("under", opt_to_py un.odds)])
      | _, _ => odds_data
    | _, _, _ => odds_data
  else if strContains market_name "dragon" || strContains market_name "baron" ||
      strContains market_name "inhibitor" then
    let market_key := clean_market_name market_name
    match results[0]?, results[1]? with
    | some r0, some r1 =>
      dictSet odds_data market_key
        (.dict [("team1", opt_to_py r0.odds), ("team2", opt_to_py r1.odds)])
    | some r0, Option.none => dictSet odds_data market_key (opt_to_py r0.odds)
    | _, _ => odds_data
  else odds_data

/-- `PandaScoreProvider._extract_odds`: lowercase each market name, skip
markets without results, apply the optional monitored-market substring
filter, and fold the classifier over the list. -/
def extract_odds (monitored_markets : List String) (odds_list : List RawOdd) :
    List (String × PyVal) :=
  odds_list.foldl
    (fun odds_data odd =>
      let market_name := strToLower odd.market_name
      if odd.results.isEmpty then odds_data
      else if !monitored_markets.isEmpty &&
          !(monitored_markets.any (fun mt => strContains market_name mt)) then odds_data
      else process_market_odds market_name odd.results odds_data)
    []

/-! ### Match formatting (src/providers.py `_format_matches`) -/

/-- `PandaScoreProvider._format_single_match`: validate the opponents
structure, extract team and league names (league slug lowercased),
extract odds, drop non-upcoming records without odds, and build the
normalized record. -/
def format_single_match (monitored_markets : List String) (m : RawMatch)
    (status : String) : Option MatchRec :=
  if m.opponents.length < 2 then none
  else
    match m.opponents[0]?, m.opponents[1]? with
    | some (some t1), some (some t2) =>
      let team1 := t1.name.getD (t1.slug.getD "Team A")
      let team2 := t2.name.getD (t2.slug.getD "Team B")
      let league_name := (m.league.bind (fun l => l.name)).getD "Unknown League"
      let league_slug := strToLower ((m.league.bind (fun l => l.slug)).getD "")
      let odds_data := extract_odds monitored_markets m.odds
      let keep : Bool := !odds_data.isEmpty || status == "upcoming"
      if keep then
        some ⟨(m.id.map toString).getD "", team1 ++ " vs " ++ team2, team1, team2,
              league_name, league_slug, m.tournament_name, status, m.begin_at, odds_data⟩
      else none
    | _, _ => none

/-- `PandaScoreProvider._format_matches`: format each record, skipping
the ones the single-record formatter rejects. -/
def format_matches (monitored_markets : List String) (ms : List RawMatch)
    (status : String) : List MatchRec :=
  ms.filterMap (fun m => format_single_match monitored_markets m status)

/-! ### Resilient fetch client (src/providers.py) -/

/-- One upstream response: a JSON list body, a non-list body, a request
timeout, or an HTTP error status. -/
inductive Resp where
  | ok : List RawMatch → Resp
  | notList : Resp
  | timeout : Resp
  | err : Nat → Resp
deriving DecidableEq

/-- Errors escaping `_make_request`: an `httpx.HTTPStatusError` carrying
the status code, or exhaustion of the modelled response trace. -/
inductive FetchErr where
  | http : Nat → FetchErr
  | noResp : FetchErr
deriving DecidableEq

/-- One issued HTTP request: whether the league filter parameter was
attached, and the match status requested. -/
structure ReqRec where
  filtered : Bool
  status : String
deriving DecidableEq

/-- Output of `_make_request`: the result (list body or escaped error),
the unconsumed responses, the requests issued and the sleeps performed. -/
structure MakeOut where
  result : Except FetchErr (List RawMatch)
  trace : List Resp
  requests : List ReqRec
  sleeps : List Nat

/-- `PandaScoreProvider._make_request`: one attempt consumes one
response.  A list body is returned; a non-list body degrades to `[]`; a
timeout retries with backoff `2 ** retries` while `retries <
max_retries` and degrades to `[]` once the budget is exhausted; a 429
sleeps the fixed 60 s cooldown and then (being a < 500 status) re-raises
without retrying; a 5xx retries with the same backoff while budget
remains, then re-raises; any other status re-raises immediately. -/
def make_request (max_retries : Nat) (req : ReqRec) : Nat → List Resp → MakeOut
  | _, [] => ⟨.error .noResp, [], [], []⟩
  | _, .ok body :: rest => ⟨.ok body, rest, [req], []⟩
  | _, .notList :: rest => ⟨.ok [], rest, [req], []⟩
  | retries, .timeout :: rest =>
    if retries < max_retries then
      let o := make_request max_retries req (retries + 1) rest
      ⟨o.result, o.trace, req :: o.requests, 2 ^ retries :: o.sleeps⟩
    else ⟨.ok [], rest, [req], []⟩
  | retries, .err c :: rest =>
    if c = 429 then ⟨.error (.http 429), rest, [req], [60]⟩
    else if 500 ≤ c ∧ retries < max_retries then
      let o := make_request max_retries req (retries + 1) rest
      ⟨o.result, o.trace, req :: o.requests, 2 ^ retries :: o.sleeps⟩
    else ⟨.error (.http c), rest, [req], []⟩

/-- Output of the league-filtered fetch: `some matches` on success,
`none` signalling the 400 fallback, or a propagated error. -/
structure FilterOut where
  result : Except FetchErr (Option (List MatchRec))
  trace : List Resp
  requests : List ReqRec
  sleeps : List Nat

/-- `PandaScoreProvider._fetch_with_league_filter`: issue the filtered
request; on a truthy body format and return it, on an empty body return
`[]`; catch only a 400 `HTTPStatusError`, signalling the unfiltered
fallback with `none`; re-raise everything else. -/
def fetch_with_league_filter (monitored_markets : List String) (max_retries : Nat)
    (status : String) (trace : List Resp) : FilterOut :=
  let o := make_request max_retries ⟨true, status⟩ 0 trace
  match o.result with
  | .ok body =>
    ⟨.ok (some (if body.isEmpty then [] else format_matches monitored_markets body status)),
     o.trace, o.requests, o.sleeps⟩
  | .error (.http 400) => ⟨.ok none, o.trace, o.requests, o.sleeps⟩
  | .error e => ⟨.error e, o.trace, o.requests, o.sleeps⟩

/-- Output of an unfiltered fetch (which never raises). -/
structure PlainOut where
  result : List MatchRec
  trace : List Resp
  requests : List ReqRec
  sleeps : List Nat

/-- `PandaScoreProvider._fetch_without_filters`: issue the unfiltered
request, format a truthy body, apply the league filter client-side when
leagues are configured, and degrade every error to `[]` (the
`except Exception` catch-all). -/
def fetch_without_filters (monitored_leagues monitored_markets : List String)
    (max_retries : Nat) (status : String) (trace : List Resp) : PlainOut :=
  let o := make_request max_retries ⟨false, status⟩ 0 trace
  match o.result with
  | .ok body =>
    ⟨if body.isEmpty then []
     else
       let formatted := format_matches monitored_markets body status
       if monitored_leagues.isEmpty then formatted
       else formatted.filter (fun m => monitored_leagues.contains m.league_slug),
     o.trace, o.requests, o.sleeps⟩
  | .error _ => ⟨[], o.trace, o.requests, o.sleeps⟩

/-- Output of `_fetch_matches_by_status`: the caller sees either a
normalized list or an uncaught exception. -/
structure FetchOut where
  result : Except FetchErr (List MatchRec)
  trace : List Resp
  requests : List ReqRec
  sleeps : List Nat

/-- `PandaScoreProvider._fetch_matches_by_status`: with leagues
configured, try the filtered fetch, return the matches when it yields a
list, fall back to the unfiltered fetch when it signals the 400, and
propagate any other error (there is no handler at this level); with no
leagues configured, go straight to the unfiltered fetch. -/
def fetch_matches_by_status (monitored_leagues monitored_markets : List String)
    (max_retries : Nat) (status : String) (trace : List Resp) : FetchOut :=
  if monitored_leagues.isEmpty then
    let o := fetch_without_filters monitored_leagues monitored_markets max_retries status trace
    ⟨.ok o.result, o.trace, o.requests, o.sleeps⟩
  else
    let f := fetch_with_league_filter monitored_markets max_retries status trace
    match f.result with
    | .ok (some ms) => ⟨.ok ms, f.trace, f.requests, f.sleeps⟩
    | .ok none =>
      let o := fetch_without_filters monitored_leagues monitored_markets max_retries status f.trace
      ⟨.ok o.result, o.trace, f.requests ++ o.requests, f.sleeps ++ o.sleeps⟩
    | .error e => ⟨.error e, f.trace, f.requests, f.sleeps⟩

/-- `PandaScoreProvider.get_live_odds`: fetch status `running` only,
then keep the matches whose odds dict is truthy. -/
def get_live_odds (monitored_leagues monitored_markets : List String)
    (max_retries : Nat) (trace : List Resp) : FetchOut :=
  let o := fetch_matches_by_status monitored_leagues monitored_markets max_retries "running" trace
  match o.result with
  | .ok ms => ⟨.ok (ms.filter (fun m => !m.odds.isEmpty)), o.trace, o.requests, o.sleeps⟩
  | .error e => ⟨.error e, o.trace, o.requests, o.sleeps⟩

/-! ### Rate limiter (src/providers.py `RateLimiter`) -/

/-- `(now - t).seconds` of Python `timedelta`: the seconds component,
i.e. the true age modulo 86400 (one day) for past timestamps. -/
def seconds_between (now t : Nat) : Nat := (now - t) % 86400

/-- `RateLimiter.acquire`, sequential semantics over integer-second
timestamps.  Prune entries whose `.seconds` age reaches the window; when
the pruned list is at the budget, sleep
`time_window - (now - requests[0]).seconds + 1` (guarded positive);
finally append the timestamp `now` captured at entry.  Returns the new
request list and the completion time. -/
def acquire (max_requests time_window : Nat) (requests : List Nat) (now : Nat) :
    List Nat × Nat :=
  let pruned := requests.filter (fun t => seconds_between now t < time_window)
  if max_requests ≤ pruned.length then
    let wait_time := time_window - seconds_between now (pruned.headD 0) + 1
    (pruned ++ [now], now + (if 0 < wait_time then wait_time else 0))
  else (pruned ++ [now], now)

/-! ### Deduplication cache and live cycle (src/engine.py) -/

/-- Deterministic serialization of an opportunity set, standing for
Python `str(opportunities)` composed with `hash` (both deterministic
within a process run, which is all the dedup logic uses). -/
def ser_opps (opps : List (String × ℚ)) : String :=
  String.join (opps.map (fun p => p.1 ++ ":" ++ toString p.2.num ++ "/" ++ toString p.2.den ++ ";"))

/-- The dedup fingerprint
`f"{match_data['match']}_{hash(str(opportunities))}"`. -/
def fingerprint (match_name : String) (opps : List (String × ℚ)) : String :=
  match_name ++ "_" ++ ser_opps opps

/-- The cache-trimming statement
`set(list(cache)[-50:])` executed when `len(cache) > 100`: `enum` is the
iteration order the unordered `set` happens to produce (any permutation
of the contents is a legal behaviour), and the last 50 entries of that
enumeration are kept. -/
def evict_cache {α : Type} (enum : List α → List α) (cache : List α) : List α :=
  if 100 < cache.length then (enum cache).drop ((enum cache).length - 50) else cache

/-- One iteration of the `for match_data in live_matches` body of
`OpeningEngine.monitor_live_odds`, for a match whose opportunity set has
already been computed: skip falsy opportunity sets, suppress fingerprints
already cached, otherwise notify (count it), insert the fingerprint and
trim the cache.  State is (cache contents in insertion order,
notifications emitted). -/
def live_step (enum : List String → List String) (st : List String × Nat)
    (item : String × List (String × ℚ)) : List String × Nat :=
  if item.2.isEmpty then st
  else
    let oid := fingerprint item.1 item.2
    if st.1.contains oid then st
    else (evict_cache enum (st.1 ++ [oid]), st.2 + 1)

/-- One live cycle over the fetched matches (notification count reset
per cycle). -/
def live_cycle (enum : List String → List String) (cache : List String)
    (items : List (String × List (String × ℚ))) : List String × Nat :=
  items.foldl (live_step enum) (cache, 0)

/-! ### Concrete fixtures used by the theorems -/

/-- An opponents entry with a named opponent. -/
def mkOpp (n : String) : Option RawOpponent := some ⟨some n, none⟩

/-- Three well-formed upcoming raw records: two in the `lck` league (one
with an uppercase feed slug), one in `lec`. -/
def rawsC8 : List RawMatch :=
  [⟨some 7, [mkOpp "T1", mkOpp "GenG"], some ⟨some "LCK", some "lck"⟩, none, some "2026-01-01", []⟩,
   ⟨some 8, [mkOpp "G2", mkOpp "FNC"], some ⟨some "LEC", some "lec"⟩, none, some "2026-01-02", []⟩,
   ⟨some 9, [mkOpp "DK", mkOpp "KT"], some ⟨some "LCK", some "LCK"⟩, none, some "2026-01-03", []⟩]

/-- A running raw record carrying a first-blood market. -/
def raw_running_with_odds : RawMatch :=
  ⟨some 1, [mkOpp "G2", mkOpp "FNC"], some ⟨some "LEC", some "lec"⟩, none, none,
   [⟨"First Blood", [⟨some "G2", some 2⟩, ⟨some "FNC", some (9/5)⟩]⟩]⟩

/-- A running raw record with no quoted market. -/
def raw_running_no_odds : RawMatch :=
  ⟨some 2, [mkOpp "A", mkOpp "B"], some ⟨some "LEC", some "lec"⟩, none, none, []⟩

/-- Four consecutive server errors (more than the retry budget of 3
allows). -/
def fourFives : List Resp := [.err 500, .err 500, .err 500, .err 500]

/-- Four consecutive request timeouts. -/
def fourTimeouts : List Resp := [.timeout, .timeout, .timeout, .timeout]

/-- A dedup cache already holding 100 distinct fingerprints (a reachable
state: the cache grows one fingerprint per notification and is only
trimmed after exceeding 100). -/
def cache100 : List String := (List.range 100).map (fun n => "c" ++ toString n)

/-! ### Helper lemmas -/

/-- For a positive mean, every partial sum of the Poisson masses is
strictly below 1 (there is always mass beyond any finite prefix). -/
theorem poisson_cdf_lt_one (lam : ℝ) (hlam : 0 < lam) (n : ℕ) :
    ∑ k ∈ Finset.range n, poisson_prob lam k < 1 := by
  have hexp : 0 < Real.exp (-lam) := Real.exp_pos _
  have h1 : ∑ k ∈ Finset.range n, poisson_prob lam k
      = Real.exp (-lam) * ∑ k ∈ Finset.range n, lam ^ k / (Nat.factorial k : ℝ) := by
    rw [Finset.mul_sum]
    exact Finset.sum_congr rfl (fun k _ => by unfold poisson_prob; ring)
  have hsucc : ∑ k ∈ Finset.range (n + 1), lam ^ k / (Nat.factorial k : ℝ)
      = (∑ k ∈ Finset.range n, lam ^ k / (Nat.factorial k : ℝ)) + lam ^ n / (Nat.factorial n : ℝ) :=
    Finset.sum_range_succ _ n
  have hle : ∑ k ∈ Finset.range (n + 1), lam ^ k / (Nat.factorial k : ℝ) ≤ Real.exp lam :=
    Real.sum_le_exp_of_nonneg hlam.le (n + 1)
  have hpos : 0 < lam ^ n / (Nat.factorial n : ℝ) := by positivity
  have h2 : ∑ k ∈ Finset.range n, lam ^ k / (Nat.factorial k : ℝ) < Real.exp lam := by
    linarith
  have h3 : Real.exp (-lam) * Real.exp lam = 1 := by
    rw [← Real.exp_add]; simp
  calc ∑ k ∈ Finset.range n, poisson_prob lam k
      = Real.exp (-lam) * ∑ k ∈ Finset.range n, lam ^ k / (Nat.factorial k : ℝ) := h1
    _ < Real.exp (-lam) * Real.exp lam := by
        exact mul_lt_mul_of_pos_left h2 hexp
    _ = 1 := h3

/-! ### Claims -/

/-- C6: an opportunity passes the edge gate only when the edge fraction
`(quoted - fair)/fair` strictly exceeds the configured threshold: for
present (truthy) numeric prices `has_edge` decides exactly
`threshold < (q - f)/f`; concretely, quoted 2.00 against fair 1.80 has
edge 1/9 ≈ 0.1111, flagged at threshold 0.05 and not at 0.15. -/
theorem C6_edge_strictly_above_threshold :
    (∀ q f th : ℚ, q ≠ 0 → f ≠ 0 →
      has_edge (.num q) (.num f) th = .ok (decide (th < (q - f) / f))) ∧
    edge_fraction 2 (9/5) = 1/9 ∧
    has_edge (.num 2) (.num (9/5)) (5/100) = .ok true ∧
    has_edge (.num 2) (.num (9/5)) (15/100) = .ok false := by
  refine ⟨?_, by norm_num [edge_fraction],
    by norm_num [has_edge, pyFalsy, pySub, pyDiv],
    by norm_num [has_edge, pyFalsy, pySub, pyDiv]⟩
  intro q f th hq hf
  simp [has_edge, pyFalsy, pySub, pyDiv, hq, hf]

/-- Witness for C6 at quoted 2.00, fair 1.80, threshold 0.05. -/
theorem C6_edge_strictly_above_threshold_witness :
    (2 : ℚ) ≠ 0 ∧ (9/5 : ℚ) ≠ 0 ∧
    has_edge (.num 2) (.num (9/5)) (5/100) =
      .ok (decide ((5/100 : ℚ) < (2 - 9/5) / (9/5))) :=
  ⟨by norm_num, by norm_num,
    C6_edge_strictly_above_threshold.1 2 (9/5) (5/100) (by norm_num) (by norm_num)⟩

/-- C4: the claim fails on the code.  The providers quote count
over/under markets as a two-sided pair dict (shown here on the concrete
kills market the normalizer produces, whose key matches the engine's
kills test), the fair-odds model does yield a positive over price for
that market (so the engine reaches the quoted-versus-fair comparison),
and `has_edge` applied to the pair-shaped quote raises `TypeError`: the
comparison subtracts a dict from a float. -/
theorem C4_kills_pair_quote_raises_type_error :
    process_market_odds "total kills 28.5"
        [⟨some "Over 28.5", some (41/20)⟩, ⟨some "Under 28.5", some (9/5)⟩] [] =
      [("KillsO/U28.5", .dict [("over", .num (41/20)), ("under", .num (9/5))])] ∧
    strContains "killso/u28.5" "kills" = true ∧
    (∃ p : ℝ, 0 < p ∧ (fair_odds 28.5 28.5).1 = some p) ∧
    has_edge (.dict [("over", .num (41/20)), ("under", .num (9/5))]) (.num (169/100)) (5/100) =
      .error "TypeError" := by
  refine ⟨rfl, rfl, ?_, by norm_num [has_edge, pyFalsy, pySub, pyDiv]⟩
  have hS := poisson_cdf_lt_one 28.5 (by norm_num) (⌊(28.5 : ℝ)⌋₊ + 1)
  have hpos : 0 < 1 - ∑ k ∈ Finset.range (⌊(28.5 : ℝ)⌋₊ + 1), poisson_prob 28.5 k :=
    sub_pos.mpr hS
  exact ⟨_, one_div_pos.mpr hpos, by simp only [fair_odds]; rw [if_pos hpos]⟩

/-- C2: the claim fails on the code.  The dedup cache is a Python `set`,
trimmed by `set(list(cache)[-50:])`; the kept entries are the last 50 of
whatever enumeration the unordered set produces, not the 50 most
recently inserted.  With fingerprints 0..100 inserted in that order and
a newest-first enumeration (a legal behaviour of an unordered set, shown
to be a permutation of the contents), the eviction keeps the 50 OLDEST
entries: the most recent fingerprint 100 is evicted and the result is
not the recency-ordered survivor set.  The capacity part of the claim
does hold: the trimmed cache has 50 ≤ 100 entries. -/
theorem C2_set_truncation_is_not_recency_eviction :
    (List.reverse (List.range 101)).Perm (List.range 101) ∧
    (evict_cache List.reverse (List.range 101)).length = 50 ∧
    (100 : ℕ) ∉ evict_cache List.reverse (List.range 101) ∧
    (0 : ℕ) ∈ evict_cache List.reverse (List.range 101) ∧
    evict_cache List.reverse (List.range 101) ≠ (List.range 101).drop 51 := by
  refine ⟨List.reverse_perm _, ?_, ?_, ?_, ?_⟩ <;> decide

/-- C7: the claim fails on the code.  On a 429 the handler sleeps the
60 s cooldown and then raises `HTTPStatusError`, which the retry guard
(`status_code >= 500`) re-raises without retrying: only one request is
issued even though a successful response is available next, and the 429
surfaces as a failure of the fetch — an empty result on the unfiltered
path and a propagated exception on the league-filtered path. -/
theorem C7_rate_limit_cooldown_without_retry :
    make_request 3 ⟨false, "upcoming"⟩ 0 [.err 429, .ok []] =
      ⟨.error (.http 429), [.ok []], [⟨false, "upcoming"⟩], [60]⟩ ∧
    (fetch_without_filters [] [] 3 "upcoming" [.err 429, .ok []]).result = [] ∧
    (fetch_matches_by_status ["lck"] [] 3 "upcoming" [.err 429, .ok []]).result =
      .error (.http 429) :=
  ⟨rfl, rfl, rfl⟩

/-- C3 counterexample: with a league filter configured, four consecutive
5xx responses (exhausting the retry budget of 3) propagate the
`HTTPStatusError` out of the fetch instead of degrading to an empty
list — the filtered path catches only the 400 filter-syntax case. -/
theorem C3_counterexample_filtered_5xx_propagates :
    (fetch_matches_by_status ["lck"] [] 3 "upcoming" fourFives).result =
      .error (.http 500) :=
  rfl

/-- C3 amended: sustained 5xx yields an empty result without raising
only on the unfiltered path (four attempts are made: one initial plus
max-retries 3); sustained timeouts degrade to an empty result on every
path; but with a league filter configured a retry-exhausted 5xx
propagates to the caller. -/
theorem C3_amended_degradation :
    (fetch_matches_by_status [] [] 3 "upcoming" fourFives).result = .ok [] ∧
    (fetch_matches_by_status [] [] 3 "upcoming" fourFives).requests.length = 4 ∧
    (fetch_matches_by_status ["lck"] [] 3 "upcoming" fourTimeouts).result = .ok [] ∧
    (fetch_matches_by_status ["lck"] [] 3 "upcoming" fourFives).result =
      .error (.http 500) :=
  ⟨rfl, rfl, rfl, rfl⟩

/-- C9: the claim fails on the code.  One live-cycle fetch issues
exactly one upstream request, for status `running` only — no `recent`
(or `finished`) fetch and no merge ever happens — while the
no-quoted-market discard does hold (the record without odds is
dropped). -/
theorem C9_live_cycle_fetches_running_only :
    (get_live_odds [] [] 3 [.ok [raw_running_with_odds, raw_running_no_odds]]).requests =
      [⟨false, "running"⟩] ∧
    (⟨false, "recent"⟩ : ReqRec) ∉
      (get_live_odds [] [] 3 [.ok [raw_running_with_odds, raw_running_no_odds]]).requests ∧
    (get_live_odds [] [] 3 [.ok [raw_running_with_odds, raw_running_no_odds]]).result =
      .ok [⟨"1", "G2 vs FNC", "G2", "FNC", "LEC", "lec", none, "running", none,
            [("FirstBlood", .dict [("team1", .num 2), ("team2", .num (9/5))])]⟩] := by
  refine ⟨rfl, ?_, rfl⟩
  intro h
  simp [get_live_odds, fetch_matches_by_status, fetch_without_filters, make_request] at h

/-- C5 as amended: whenever the dedup cache holds at most 99 entries
beforehand (so the insertion cannot trigger the set truncation — e.g.
any fresh run of the scenario), two consecutive live cycles that compute
the identical (nonempty) opportunity set for the same match notify
exactly once: the first cycle notifies and caches the fingerprint, the
second finds the fingerprint cached and is suppressed.  At a 100-entry
cache the guarantee fails (see the counterexample below). -/
theorem C5_consecutive_identical_cycles_notify_once
    (enum : List String → List String) (cache : List String)
    (item : String × List (String × ℚ))
    (hne : item.2 ≠ []) (hnew : fingerprint item.1 item.2 ∉ cache)
    (hroom : cache.length ≤ 99) :
    (live_cycle enum cache [item]).2 = 1 ∧
    (live_cycle enum (live_cycle enum cache [item]).1 [item]).2 = 0 := by
  have hempty : item.2.isEmpty = false := by
    cases h : item.2 with
    | nil => exact absurd h hne
    | cons a l => rfl
  have hlen2 : ¬ 100 < cache.length + 1 := by omega
  have hmem : fingerprint item.1 item.2 ∈ cache ++ [fingerprint item.1 item.2] := by
    simp
  constructor
  · simp [live_cycle, live_step, hempty, hnew, evict_cache, hlen2]
  · simp [live_cycle, live_step, hempty, hnew, evict_cache, hlen2, hmem]

/-- Witness for C5: a fresh cache, one live match with one opportunity,
two consecutive cycles, one notification. -/
theorem C5_consecutive_identical_cycles_notify_once_witness :
    (("ML_T1", (2 : ℚ)) :: []) ≠ [] ∧
    fingerprint "T1 vs GenG" [("ML_T1", (2 : ℚ))] ∉ ([] : List String) ∧
    ([] : List String).length ≤ 99 ∧
    (live_cycle id [] [("T1 vs GenG", [("ML_T1", (2 : ℚ))])]).2 = 1 ∧
    (live_cycle id (live_cycle id [] [("T1 vs GenG", [("ML_T1", (2 : ℚ))])]).1
      [("T1 vs GenG", [("ML_T1", (2 : ℚ))])]).2 = 0 := by
  refine ⟨by simp, by simp, by simp, ?_⟩
  exact (C5_consecutive_identical_cycles_notify_once id []
    ("T1 vs GenG", [("ML_T1", (2 : ℚ))]) (by simp) (by simp) (by simp))

/-- C8: with leagues configured, a filter-syntax 400 on the filtered
request is followed by exactly one unfiltered fallback request (the
request log is precisely the filtered request then the unfiltered one),
and the returned records are exactly the normalized records of the
fallback body whose league slug lies in the monitored set — the league
filter applied client-side after normalization. -/
theorem C8_league_filter_fallback (monitored monitored_markets : List String)
    (max_retries : Nat) (status : String) (raws : List RawMatch) (rest : List Resp)
    (hmon : monitored ≠ []) :
    fetch_matches_by_status monitored monitored_markets max_retries status
        (.err 400 :: .ok raws :: rest) =
      ⟨.ok (if raws.isEmpty then []
            else (format_matches monitored_markets raws status).filter
              (fun m => monitored.contains m.league_slug)),
       rest, [⟨true, status⟩, ⟨false, status⟩], []⟩ := by
  have hm : monitored.isEmpty = false := by
    cases monitored with
    | nil => exact absurd rfl hmon
    | cons a l => rfl
  simp [fetch_matches_by_status, fetch_with_league_filter, fetch_without_filters,
    make_request, hm]

/-- Witness for C8: leagues `["lck"]`, a 400 on the filtered request,
then a fallback body of three records of which two are in `lck`. -/
theorem C8_league_filter_fallback_witness :
    (["lck"] : List String) ≠ [] ∧
    fetch_matches_by_status ["lck"] [] 3 "upcoming" [.err 400, .ok rawsC8] =
      ⟨.ok (if rawsC8.isEmpty then []
            else (format_matches [] rawsC8 "upcoming").filter
              (fun m => (["lck"] : List String).contains m.league_slug)),
       [], [⟨true, "upcoming"⟩, ⟨false, "upcoming"⟩], []⟩ :=
  ⟨by simp, C8_league_filter_fallback ["lck"] [] 3 "upcoming" rawsC8 [] (by simp)⟩

/-- C10: after a completed sequential `acquire`, the number of recorded
timestamps still inside the rolling window never exceeds the request
budget, and an acquire that finds the window at capacity completes
strictly later than it started (the caller waits).  Hypotheses: a
positive budget and window, timestamps recorded in the past and less
than a day old (the regime in which the `timedelta.seconds` age used by
the code equals the true age), and the inductive budget invariant on
entry. -/
theorem C10_rate_limiter_never_exceeds_budget
    (max_requests time_window : Nat) (requests : List Nat) (now : Nat)
    (hmax : 1 ≤ max_requests) (hW : 1 ≤ time_window)
    (hpast : ∀ t ∈ requests, t ≤ now)
    (hfresh : ∀ t ∈ requests, now - t < 86400)
    (hbudget : (requests.filter (fun t => now - t < time_window)).length ≤ max_requests) :
    (((acquire max_requests time_window requests now).1).filter
        (fun t => (acquire max_requests time_window requests now).2 - t < time_window)).length
      ≤ max_requests ∧
    (max_requests ≤ (requests.filter
        (fun t => seconds_between now t < time_window)).length →
      now < (acquire max_requests time_window requests now).2) := by
  have hfilter : requests.filter (fun t => seconds_between now t < time_window)
      = requests.filter (fun t => now - t < time_window) := by
    apply List.filter_congr
    intro t ht
    have h := hfresh t ht
    simp [seconds_between, Nat.mod_eq_of_lt h]
  set pruned := requests.filter (fun t => seconds_between now t < time_window) with hPdef
  have hsub : ∀ t ∈ pruned, t ∈ requests := fun t ht => List.mem_of_mem_filter ht
  have hprunedlen : pruned.length ≤ max_requests := by
    rw [hfilter]; exact hbudget
  by_cases hcase : max_requests ≤ pruned.length
  · obtain ⟨p, tl, hPe⟩ : ∃ p tl, pruned = p :: tl := by
      cases hpe : pruned with
      | nil =>
        rw [hpe] at hcase
        simp at hcase
        omega
      | cons p tl => exact ⟨p, tl, rfl⟩
    have hpmem : p ∈ pruned := by rw [hPe]; exact List.mem_cons_self p tl
    have hpreq : p ∈ requests := hsub p hpmem
    have hpnow : p ≤ now := hpast p hpreq
    have hpfresh : now - p < 86400 := hfresh p hpreq
    have hpwin : now - p < time_window := by
      have h := List.of_mem_filter hpmem
      simpa [seconds_between, Nat.mod_eq_of_lt hpfresh] using h
    have hhead : pruned.headD 0 = p := by rw [hPe]; rfl
    have hsec : seconds_between now p = now - p := by
      simp [seconds_between, Nat.mod_eq_of_lt hpfresh]
    have hacq : acquire max_requests time_window requests now =
        (pruned ++ [now], now + (time_window - (now - p) + 1)) := by
      simp only [acquire, ← hPdef, hhead, hsec]
      rw [if_pos hcase, if_pos (by omega : 0 < time_window - (now - p) + 1)]
    rw [hacq]
    constructor
    · rw [List.filter_append, hPe, List.filter_cons]
      have hfp : (decide (now + (time_window - (now - p) + 1) - p < time_window)) = false := by
        simp only [decide_eq_false_iff_not]
        omega
      rw [hfp]
      simp only [Bool.false_eq_true, if_false]
      have h1 := List.length_filter_le
        (fun t => decide (now + (time_window - (now - p) + 1) - t < time_window)) tl
      have h2 := List.length_filter_le
        (fun t => decide (now + (time_window - (now - p) + 1) - t < time_window)) [now]
      have h3 : tl.length + 1 = pruned.length := by rw [hPe]; simp
      simp only [List.length_singleton] at h2
      rw [List.length_append]
      omega
    · intro _
      omega
  · have hlt : pruned.length < max_requests := Nat.lt_of_not_le hcase
    have hacq : acquire max_requests time_window requests now = (pruned ++ [now], now) := by
      simp only [acquire, ← hPdef]
      rw [if_neg hcase]
    rw [hacq]
    refine ⟨?_, fun h => absurd h hcase⟩
    rw [List.filter_append]
    have hall : pruned.filter (fun t => now - t < time_window) = pruned := by
      apply List.filter_eq_self.mpr
      intro t ht
      have h1 := List.of_mem_filter ht
      have h2 := hfresh t (hsub t ht)
      simpa [seconds_between, Nat.mod_eq_of_lt h2] using h1
    rw [hall]
    have hnow : ([now].filter (fun t => now - t < time_window)) = [now] := by
      simp
      omega
    rw [hnow]
    simp only [List.length_append, List.length_singleton]
    omega

/-- Witness for C10: budget 2 in a 60 s window, timestamps 0 and 50,
acquire at t = 59: the limiter waits (completion 61) and the window
count stays at 2. -/
theorem C10_rate_limiter_never_exceeds_budget_witness :
    1 ≤ 2 ∧ 1 ≤ 60 ∧ (∀ t ∈ [0, 50], t ≤ 59) ∧ (∀ t ∈ [0, 50], 59 - t < 86400) ∧
    (([0, 50].filter (fun t => 59 - t < 60)).length ≤ 2) ∧
    ((((acquire 2 60 [0, 50] 59).1).filter
        (fun t => (acquire 2 60 [0, 50] 59).2 - t < 60)).length ≤ 2 ∧
     (2 ≤ ([0, 50].filter (fun t => seconds_between 59 t < 60)).length →
       59 < (acquire 2 60 [0, 50] 59).2)) := by
  refine ⟨by norm_num, by norm_num, by decide, by decide, by decide, ?_⟩
  exact C10_rate_limiter_never_exceeds_budget 2 60 [0, 50] 59
    (by norm_num) (by norm_num) (by decide) (by decide) (by decide)

/-- C1: for nonnegative mean and line, `fair_odds` computes exactly the
spec: P(under) is the cumulative Poisson mass `spec_poisson_cdf` over
0..⌊L⌋, P(over) its complement, and each side is priced 1/P when the
probability is positive and has no price otherwise; concretely at
λ = 2, L = 1 the cumulative mass is 3·e⁻² (within 0.001 of 0.4060), the
fair under price is within 0.01 of 2.463 and the fair over price within
0.01 of 1.683. -/
theorem C1_fair_odds_matches_poisson_spec :
    (∀ lam L : ℝ, 0 ≤ lam → 0 ≤ L →
      fair_odds lam L =
        ((if 0 < 1 - spec_poisson_cdf lam L then some (1 / (1 - spec_poisson_cdf lam L))
          else none),
         (if 0 < spec_poisson_cdf lam L then some (1 / spec_poisson_cdf lam L) else none))) ∧
    spec_poisson_cdf 2 1 = 3 * Real.exp (-2) ∧
    |spec_poisson_cdf 2 1 - 0.406| < 1 / 1000 ∧
    (∃ fu : ℝ, (fair_odds 2 1).2 = some fu ∧ |fu - 2.463| < 1 / 100) ∧
    (∃ fo : ℝ, (fair_odds 2 1).1 = some fo ∧ |fo - 1.683| < 1 / 100) := by
  have hsum : ∀ lam L : ℝ, ∑ k ∈ Finset.range (⌊L⌋₊ + 1), poisson_prob lam k
      = spec_poisson_cdf lam L := by
    intro lam L
    unfold spec_poisson_cdf
    exact Finset.sum_congr rfl (fun k _ => by unfold poisson_prob; ring)
  have hmain : ∀ lam L : ℝ, fair_odds lam L =
      ((if 0 < 1 - spec_poisson_cdf lam L then some (1 / (1 - spec_poisson_cdf lam L))
        else none),
       (if 0 < spec_poisson_cdf lam L then some (1 / spec_poisson_cdf lam L) else none)) := by
    intro lam L
    simp only [fair_odds]
    rw [hsum, sub_sub_cancel]
  have hcdf : spec_poisson_cdf 2 1 = 3 * Real.exp (-2) := by
    unfold spec_poisson_cdf
    rw [Nat.floor_one, Finset.sum_range_succ, Finset.sum_range_one]
    norm_num [Nat.factorial]
    ring
  -- numeric bounds on x = e⁻²
  have hxE : Real.exp (-2) * Real.exp 2 = 1 := by
    rw [← Real.exp_add]; norm_num
  have hE : Real.exp 2 = Real.exp 1 * Real.exp 1 := by
    rw [← Real.exp_add]; norm_num
  have hE1 : (7.389056098 : ℝ) < Real.exp 2 := by
    rw [hE]
    nlinarith [Real.exp_one_gt_d9, Real.exp_pos 1]
  have hE2 : Real.exp 2 < 7.3890561 := by
    rw [hE]
    nlinarith [Real.exp_one_lt_d9, Real.exp_one_gt_d9, Real.exp_pos 1]
  have hxpos : 0 < Real.exp (-2) := Real.exp_pos _
  have hx1 : (0.1353352 : ℝ) < Real.exp (-2) := by nlinarith [hxE, hE2, hxpos]
  have hx2 : Real.exp (-2) < 0.1353353 := by nlinarith [hxE, hE1, hxpos]
  have hcdfpos : 0 < spec_poisson_cdf 2 1 := by rw [hcdf]; positivity
  have hcdflt : spec_poisson_cdf 2 1 < 1 := by rw [hcdf]; nlinarith [hx2]
  refine ⟨fun lam L _ _ => hmain lam L, hcdf, ?_, ?_, ?_⟩
  · rw [hcdf, abs_sub_lt_iff]
    constructor <;> nlinarith [hx1, hx2]
  · refine ⟨1 / spec_poisson_cdf 2 1, ?_, ?_⟩
    · rw [hmain 2 1]
      simp only [if_pos hcdfpos]
    · rw [hcdf]
      have h3x : 0 < 3 * Real.exp (-2) := by positivity
      have hfu1 : 1 / (3 * Real.exp (-2)) < 2.473 := by
        rw [div_lt_iff₀ h3x]; nlinarith [hx1]
      have hfu2 : (2.453 : ℝ) < 1 / (3 * Real.exp (-2)) := by
        rw [lt_div_iff₀ h3x]; nlinarith [hx2]
      rw [abs_sub_lt_iff]
      constructor <;> linarith
  · refine ⟨1 / (1 - spec_poisson_cdf 2 1), ?_, ?_⟩
    · rw [hmain 2 1]
      simp only [if_pos (sub_pos.mpr hcdflt)]
    · rw [hcdf]
      have hd : (0 : ℝ) < 1 - 3 * Real.exp (-2) := by nlinarith [hx2]
      have hfo1 : 1 / (1 - 3 * Real.exp (-2)) < 1.693 := by
        rw [div_lt_iff₀ hd]; nlinarith [hx2]
      have hfo2 : (1.673 : ℝ) < 1 / (1 - 3 * Real.exp (-2)) := by
        rw [lt_div_iff₀ hd]; nlinarith [hx1]
      rw [abs_sub_lt_iff]
      constructor <;> linarith

/-- Witness for C1 at λ = 2, L = 1. -/
theorem C1_fair_odds_matches_poisson_spec_witness :
    (0 : ℝ) ≤ 2 ∧ (0 : ℝ) ≤ 1 ∧
    fair_odds 2 1 =
      ((if 0 < 1 - spec_poisson_cdf 2 1 then some (1 / (1 - spec_poisson_cdf 2 1)) else none),
       (if 0 < spec_poisson_cdf 2 1 then some (1 / spec_poisson_cdf 2 1) else none)) :=
  ⟨by norm_num, by norm_num,
    C1_fair_odds_matches_poisson_spec.1 2 1 (by norm_num) (by norm_num)⟩

/-- C5 counterexample: the claim as stated fails at the reachable
100-entry cache boundary.  Inserting the fresh fingerprint brings the
cache to 101 entries, triggering `set(list(cache)[-50:])`; under a
newest-first enumeration of the unordered set (shown to be a legal
permutation of the contents) the trim evicts the fingerprint that was
just inserted, so the second identical cycle notifies again: the two
consecutive cycles notify twice, not once. -/
theorem C5_counterexample_eviction_boundary_notifies_twice :
    cache100.length = 100 ∧
    fingerprint "T1 vs GenG" [("ML_T1", (2 : ℚ))] ∉ cache100 ∧
    (List.reverse (cache100 ++ [fingerprint "T1 vs GenG" [("ML_T1", (2 : ℚ))]])).Perm
      (cache100 ++ [fingerprint "T1 vs GenG" [("ML_T1", (2 : ℚ))]]) ∧
    (live_cycle List.reverse cache100 [("T1 vs GenG", [("ML_T1", (2 : ℚ))])]).2 = 1 ∧
    (live_cycle List.reverse
        (live_cycle List.reverse cache100 [("T1 vs GenG", [("ML_T1", (2 : ℚ))])]).1
        [("T1 vs GenG", [("ML_T1", (2 : ℚ))])]).2 = 1 := by
  refine ⟨by decide, by decide, List.reverse_perm _, by decide, by decide⟩
